import Mathlib

/-!
Verification of the GateIO exchange wrapper
(`src/exchanges/gateio/gateio_wrapper.go`).

This file is a shallow embedding of the normalization and reconciliation
logic of the wrapper. Conventions of the embedding:

* Go `float64` amounts are modelled as exact rationals (`ℚ`); the claims
  under study are structural identities, not rounding facts.
* Go maps are modelled as association lists; the Go spec guarantees the
  keys of one map are pairwise distinct, which becomes a `Nodup` / pairwise
  hypothesis where a claim needs it.
* Go multi-value returns `(value, error)` are modelled as pairs
  `value × Option String` (`none` = nil error); errors are strings, as
  produced by the Go `errors` package.
* `currency.NewCode` / `currency.NewPairDelimiter` (outside src) only
  re-wrap the strings handed to them; currencies and pairs are kept as the
  raw strings.
* `order.Side` and `order.Type` are string types in the surrounding
  system (`order.Buy = "BUY"` etc.); they are modelled as `String`.
* Timestamps are carried as the raw epoch numbers; the `time.Unix`
  conversion (outside src) is not interpreted.
-/

namespace Gateio

/-- `account.Balance` as populated by `UpdateAccountInfo`: the Go struct
has a currency name, a total value and a hold amount; fields not assigned
by the wrapper keep the Go zero value `0`. -/
structure Balance where
  currencyName : String
  totalValue : ℚ
  hold : ℚ
  deriving DecidableEq, Repr

/-- First-match lookup in an association list (a Go map read `m[k]`). -/
def lookupAmt? : List (String × ℚ) → String → Option ℚ
  | [], _ => none
  | p :: ps, c => if p.1 = c then some p.2 else lookupAmt? ps c

/-- Map read defaulting a missing entry to `0`. -/
def lookupAmt (m : List (String × ℚ)) (c : String) : ℚ :=
  (lookupAmt? m c).getD 0

/-- Step 1 of the REST-path balance reconciliation in `UpdateAccountInfo`
(gateio_wrapper.go lines 338-353): for every currency of the `locked` map,
append `account.Balance{CurrencyName: x, Hold: lockedF}`. Note the Go
literal assigns only `Hold`; `TotalValue` is left at its zero value `0`. -/
def lockedBalances (locked : List (String × ℚ)) : List Balance :=
  locked.map fun p => { currencyName := p.1, totalValue := 0, hold := p.2 }

/-- Step 2 of the REST-path balance reconciliation (lines 355-380): for a
currency `x` of the `available` map, scan `balances` for the first record
with the same currency; if found, set its `TotalValue` to `Hold + avail`
and stop; otherwise append `account.Balance{CurrencyName: x, TotalValue:
avail}` at the end. -/
def applyAvailable : List Balance → String → ℚ → List Balance
  | [], c, a => [{ currencyName := c, totalValue := a, hold := 0 }]
  | b :: bs, c, a =>
    if b.currencyName = c then { b with totalValue := b.hold + a } :: bs
    else b :: applyAvailable bs c a

/-- The complete REST-path balance reconciliation of `UpdateAccountInfo`:
step 1 over `locked`, then step 2 folded over `available`. -/
def reconcileBalances (locked available : List (String × ℚ)) : List Balance :=
  available.foldl (fun bs p => applyAvailable bs p.1 p.2) (lockedBalances locked)

/-- First-match lookup of a balance record by currency name. -/
def findBal : List Balance → String → Option Balance
  | [], _ => none
  | b :: bs, c => if b.currencyName = c then some b else findBal bs c

lemma lookupAmt?_eq_none (m : List (String × ℚ)) (c : String) :
    lookupAmt? m c = none ↔ c ∉ m.map Prod.fst := by
  induction m with
  | nil => simp [lookupAmt?]
  | cons p ps ih =>
    by_cases hp : p.1 = c
    · simp [lookupAmt?, hp]
    · simp only [lookupAmt?, if_neg hp, ih, List.map_cons, List.mem_cons]
      constructor
      · rintro h (h1 | h2)
        · exact hp h1.symm
        · exact h h2
      · intro h h2
        exact h (Or.inr h2)

lemma lockedBalances_keys (locked : List (String × ℚ)) :
    (lockedBalances locked).map Balance.currencyName = locked.map Prod.fst := by
  simp [lockedBalances]

lemma findBal_lockedBalances (locked : List (String × ℚ)) (c : String) :
    findBal (lockedBalances locked) c =
      (lookupAmt? locked c).map
        fun a => { currencyName := c, totalValue := 0, hold := a } := by
  induction locked with
  | nil => rfl
  | cons p ps ih =>
    by_cases hp : p.1 = c
    · subst hp; simp [lockedBalances, findBal, lookupAmt?]
    · simp [lockedBalances, findBal, lookupAmt?, hp] at ih ⊢
      exact ih

lemma applyAvailable_keys (bs : List Balance) (c : String) (a : ℚ) :
    (applyAvailable bs c a).map Balance.currencyName =
      if c ∈ bs.map Balance.currencyName then bs.map Balance.currencyName
      else bs.map Balance.currencyName ++ [c] := by
  induction bs with
  | nil => simp [applyAvailable]
  | cons b bs ih =>
    by_cases hb : b.currencyName = c
    · simp [applyAvailable, hb]
    · simp only [applyAvailable, if_neg hb, List.map_cons, ih]
      by_cases hc : c ∈ bs.map Balance.currencyName <;>
        simp [hc, hb, Ne.symm hb]

lemma findBal_applyAvailable (bs : List Balance) (c : String) (a : ℚ) (c' : String) :
    findBal (applyAvailable bs c a) c' =
      if c' = c then
        some (match findBal bs c with
          | some b => { b with totalValue := b.hold + a }
          | none => { currencyName := c, totalValue := a, hold := 0 })
      else findBal bs c' := by
  induction bs with
  | nil =>
    by_cases hc : c' = c
    · subst hc; simp [applyAvailable, findBal]
    · simp only [applyAvailable, findBal]
      rw [if_neg (fun h : c = c' => hc h.symm), if_neg hc]
  | cons b bs ih =>
    by_cases hb : b.currencyName = c
    · by_cases hc : c' = c
      · subst hc; simp [applyAvailable, hb, findBal]
      · have hbc' : b.currencyName ≠ c' := by rw [hb]; exact fun h => hc h.symm
        have hcc : ¬ c = c' := fun h => hc h.symm
        simp [applyAvailable, hb, findBal, hbc', hc, hcc]
    · by_cases hbc' : b.currencyName = c'
      · have hc : c' ≠ c := fun h => hb (hbc'.trans h)
        simp [applyAvailable, hb, findBal, hbc', hc]
      · simp [applyAvailable, hb, findBal, hbc', ih]

/-- Step of the `available` fold, as folded in `reconcileBalances`. -/
def availStep (bs : List Balance) (p : String × ℚ) : List Balance :=
  applyAvailable bs p.1 p.2

lemma reconcileBalances_eq_foldl (locked available : List (String × ℚ)) :
    reconcileBalances locked available =
      available.foldl availStep (lockedBalances locked) := rfl

lemma findBal_fold (available : List (String × ℚ)) (bs : List Balance) (c : String)
    (ha : (available.map Prod.fst).Nodup) :
    findBal (available.foldl availStep bs) c =
      match lookupAmt? available c with
      | some a =>
          some (match findBal bs c with
            | some b => { b with totalValue := b.hold + a }
            | none => { currencyName := c, totalValue := a, hold := 0 })
      | none => findBal bs c := by
  induction available generalizing bs with
  | nil => rfl
  | cons p rest ih =>
    rw [List.map_cons] at ha
    have hrest : (rest.map Prod.fst).Nodup := (List.nodup_cons.mp ha).2
    have hp1 : p.1 ∉ rest.map Prod.fst := (List.nodup_cons.mp ha).1
    by_cases hp : p.1 = c
    · subst hp
      have hnone : lookupAmt? rest p.1 = none := (lookupAmt?_eq_none rest p.1).mpr hp1
      rw [List.foldl_cons, ih _ hrest, hnone]
      simp only [lookupAmt?, if_pos rfl]
      simp [availStep, findBal_applyAvailable]
    · have hfb : findBal (availStep bs p) c = findBal bs c := by
        rw [availStep, findBal_applyAvailable, if_neg (fun h : c = p.1 => hp h.symm)]
      have hlk : lookupAmt? (p :: rest) c = lookupAmt? rest c := by
        rw [lookupAmt?, if_neg hp]
      rw [List.foldl_cons, ih _ hrest, hfb, hlk]

lemma mem_keys_fold (available : List (String × ℚ)) (bs : List Balance) (c : String) :
    c ∈ (available.foldl availStep bs).map Balance.currencyName ↔
      c ∈ bs.map Balance.currencyName ∨ c ∈ available.map Prod.fst := by
  induction available generalizing bs with
  | nil => simp
  | cons p rest ih =>
    simp only [List.foldl_cons, ih, List.map_cons, List.mem_cons]
    have hk : c ∈ (availStep bs p).map Balance.currencyName ↔
        c ∈ bs.map Balance.currencyName ∨ c = p.1 := by
      rw [availStep, applyAvailable_keys]
      by_cases hc : p.1 ∈ bs.map Balance.currencyName
      · rw [if_pos hc]
        constructor
        · exact Or.inl
        · rintro (h | h)
          · exact h
          · exact h ▸ hc
      · rw [if_neg hc]; simp
    rw [hk]; tauto

lemma nodup_keys_fold (available : List (String × ℚ)) (bs : List Balance)
    (h : (bs.map Balance.currencyName).Nodup) :
    ((available.foldl availStep bs).map Balance.currencyName).Nodup := by
  induction available generalizing bs with
  | nil => exact h
  | cons p rest ih =>
    refine ih _ ?_
    rw [availStep, applyAvailable_keys]
    by_cases hc : p.1 ∈ bs.map Balance.currencyName
    · rw [if_pos hc]; exact h
    · rw [if_neg hc]
      simp [List.nodup_append, h, hc]

lemma findBal_eq_of_mem (bs : List Balance)
    (h : (bs.map Balance.currencyName).Nodup) (b : Balance) (hb : b ∈ bs) :
    findBal bs b.currencyName = some b := by
  induction bs with
  | nil => cases hb
  | cons x bs ih =>
    rcases List.mem_cons.mp hb with rfl | hb'
    · simp [findBal]
    · have hx : x.currencyName ≠ b.currencyName := by
        intro hcn
        exact (List.nodup_cons.mp h).1 (hcn ▸ List.mem_map_of_mem Balance.currencyName hb')
      simp [findBal, hx, ih (List.nodup_cons.mp h).2 hb']

/-- C1 (amended): for input maps with pairwise-distinct keys, the REST-path
balance reconciliation of `UpdateAccountInfo` produces every currency of the
union of the two key sets exactly once, with `hold = lockedAmount` (0 when
missing) for every record; for a currency present in `available` the record
satisfies `total = hold + availableAmount`, but a currency present only in
`locked` keeps `total = 0` (the provisional record never has its
`TotalValue` assigned), so `total = hold + available` and `total >= hold`
do not hold for locked-only currencies. -/
theorem C1_balance_reconciliation_amended (locked available : List (String × ℚ))
    (hl : (locked.map Prod.fst).Nodup) (ha : (available.map Prod.fst).Nodup) :
    ((reconcileBalances locked available).map Balance.currencyName).Nodup ∧
    (∀ c, c ∈ (reconcileBalances locked available).map Balance.currencyName ↔
        (c ∈ locked.map Prod.fst ∨ c ∈ available.map Prod.fst)) ∧
    (∀ b ∈ reconcileBalances locked available,
        b.hold = lookupAmt locked b.currencyName) ∧
    (∀ b ∈ reconcileBalances locked available,
        b.totalValue = if b.currencyName ∈ available.map Prod.fst
          then b.hold + lookupAmt available b.currencyName else 0) := by
  have hinit : ((lockedBalances locked).map Balance.currencyName).Nodup := by
    rw [lockedBalances_keys]; exact hl
  have hnodup : ((reconcileBalances locked available).map Balance.currencyName).Nodup := by
    rw [reconcileBalances_eq_foldl]; exact nodup_keys_fold available _ hinit
  have hrec : ∀ b ∈ reconcileBalances locked available,
      b.hold = lookupAmt locked b.currencyName ∧
      b.totalValue = (if b.currencyName ∈ available.map Prod.fst
        then b.hold + lookupAmt available b.currencyName else 0) := by
    intro b hb
    have hfb : findBal (reconcileBalances locked available) b.currencyName = some b :=
      findBal_eq_of_mem _ hnodup b hb
    rw [reconcileBalances_eq_foldl, findBal_fold _ _ _ ha, findBal_lockedBalances] at hfb
    rcases hav : lookupAmt? available b.currencyName with _ | a <;> rw [hav] at hfb
    · have hnm : b.currencyName ∉ available.map Prod.fst :=
        (lookupAmt?_eq_none _ _).mp hav
      rcases hlk : lookupAmt? locked b.currencyName with _ | la <;> rw [hlk] at hfb
      · simp at hfb
      · simp only [Option.map_some'] at hfb
        have hb' := Option.some.inj hfb
        rw [← hb']
        simp [lookupAmt, hlk, hnm]
    · have hm : b.currencyName ∈ available.map Prod.fst := by
        by_contra h
        rw [(lookupAmt?_eq_none _ _).mpr h] at hav
        cases hav
      rcases hlk : lookupAmt? locked b.currencyName with _ | la <;> rw [hlk] at hfb
      · simp only [Option.map_none'] at hfb
        have hb' := Option.some.inj hfb
        rw [← hb']
        simp [lookupAmt, hlk, hav, hm]
      · simp only [Option.map_some'] at hfb
        have hb' := Option.some.inj hfb
        rw [← hb']
        simp [lookupAmt, hlk, hav, hm]
  refine ⟨hnodup, ?_, fun b hb => (hrec b hb).1, fun b hb => (hrec b hb).2⟩
  intro c
  rw [reconcileBalances_eq_foldl, mem_keys_fold, lockedBalances_keys]

/-- C1 counterexample: with `locked = {BTC: 1}` and `available = {}` the
reconciliation yields the single record `{BTC, total = 0, hold = 1}`, so
`total = hold + available` fails (`0 ≠ 1 + 0`) and `total >= hold` fails,
refuting the claim that a locked-only currency gets `total = lockedAmount`
and that `total >= hold` always holds. -/
theorem C1_counterexample :
    reconcileBalances [("BTC", 1)] [] =
      [{ currencyName := "BTC", totalValue := 0, hold := 1 }] ∧
    ∃ b ∈ reconcileBalances [("BTC", 1)] [],
      b.totalValue ≠ b.hold + lookupAmt [] b.currencyName ∧
      ¬ b.hold ≤ b.totalValue := by
  refine ⟨by decide, ⟨{ currencyName := "BTC", totalValue := 0, hold := 1 },
    by decide, ?_, by norm_num⟩⟩
  simp [lookupAmt, lookupAmt?]

/-- C1 witness: the amended theorem applied to the concrete inputs
`locked = {BTC: 1/2}`, `available = {BTC: 1, ETH: 2}`. -/
theorem C1_witness :
    ((reconcileBalances [("BTC", 1/2)] [("BTC", 1), ("ETH", 2)]).map
        Balance.currencyName).Nodup :=
  (C1_balance_reconciliation_amended [("BTC", 1/2)] [("BTC", 1), ("ETH", 2)]
    (by decide) (by decide)).1

/-- `UpdateAccountInfo`, REST path, including the `GetBalances` fetch: a
fetch error is returned unchanged (line 333-336). -/
def updateAccountInfoREST
    (fetched : Except String (List (String × ℚ) × List (String × ℚ))) :
    List Balance × Option String :=
  match fetched with
  | .error e => ([], some e)
  | .ok m => (reconcileBalances m.1 m.2, none)

/-- `order.Side` / `order.Type` constants of the surrounding order
package; both are string types there (`order.Buy = Side("BUY")`, ...). -/
def buySide : String := "BUY"

def sellSide : String := "SELL"

def askSide : String := "ASK"

def bidSide : String := "BID"

def marketType : String := "MARKET"

def limitType : String := "LIMIT"

/-- `strings.EqualFold`, modelled as case-insensitive equality: the two
strings agree after lower-casing every character. -/
def eqFold (a b : String) : Bool :=
  a.data.map Char.toLower == b.data.map Char.toLower

/-- `strings.ToUpper`, modelled character-wise. -/
def toUpperStr (s : String) : String := String.mk (s.data.map Char.toUpper)

/-- Raw open-order record of the REST `GetOpenOrders` response, with the
fields the wrapper reads; `otype` is the Go field `Type`, the raw side
string (`Type` is a reserved word in Lean). -/
structure OpenOrder where
  orderNumber : String
  initialAmount : ℚ
  filledAmount : ℚ
  amount : ℚ
  rate : ℚ
  timestamp : Int
  status : String
  currencyPair : String
  otype : String
  deriving DecidableEq, Repr

/-- Raw record of the websocket order query
(`resp.WebSocketOrderQueryRecords`); `typeFlag` is the Go field `Type`
(the numeric side flag) and `orderTypeFlag` the Go field `OrderType`. -/
structure WsOrderRecord where
  id : Int
  user : Int
  market : String
  typeFlag : Int
  orderTypeFlag : Int
  price : ℚ
  amount : ℚ
  filledAmount : ℚ
  left : ℚ
  dealFee : ℚ
  ctime : ℚ
  deriving DecidableEq, Repr

/-- Canonical `order.Detail` as populated by this wrapper; a field the
wrapper does not assign keeps the Go zero value (`""` or `0`). Timestamps
are carried as the raw epoch numbers. -/
structure OrderDetail where
  exchange : String := ""
  accountID : String := ""
  id : String := ""
  currencyPair : String := ""
  orderSide : String := ""
  orderType : String := ""
  orderDate : ℚ := 0
  status : String := ""
  price : ℚ := 0
  amount : ℚ := 0
  executedAmount : ℚ := 0
  remainingAmount : ℚ := 0
  fee : ℚ := 0
  deriving DecidableEq, Repr

/-- Normalization of one websocket order record in `GetActiveOrders`
(lines 587-614): side flag 1 gives Sell, any other value keeps the initial
Buy; type flag 1 gives Limit, any other value keeps the initial Market;
`RemainingAmount` is copied from the raw `Left` field of the source. -/
def wsNormalizeOrder (name : String) (r : WsOrderRecord) : OrderDetail :=
  let orderSide := if r.typeFlag = 1 then sellSide else buySide
  let orderType := if r.orderTypeFlag = 1 then limitType else marketType
  { exchange := name
    accountID := toString r.user
    id := toString r.id
    currencyPair := r.market
    orderSide := orderSide
    orderType := orderType
    orderDate := r.ctime
    price := r.price
    amount := r.amount
    executedAmount := r.filledAmount
    remainingAmount := r.left
    fee := r.dealFee }

/-- The websocket pagination loop of `GetActiveOrders` (lines 580-619):
starting from `offset`, fetch `src offset`; a fetch error returns the
accumulated orders together with the error (Go `return orders, err`);
otherwise every record of the page is normalized and appended, and the
loop continues at `offset + 100` unless the page held fewer than 100
records. `fuel` bounds the iterations to keep the function total (the Go
loop is unbounded); the third component lists the offsets fetched. -/
def wsOrderLoop (name : String) (src : Nat → Except String (List WsOrderRecord)) :
    Nat → Nat → List OrderDetail → List OrderDetail × Option String × List Nat
  | 0, _, acc => (acc, none, [])
  | fuel + 1, offset, acc =>
    match src offset with
    | .error e => (acc, some e, [offset])
    | .ok recs =>
      let acc2 := acc ++ recs.map (wsNormalizeOrder name)
      if recs.length < 100 then (acc2, none, [offset])
      else
        let next := wsOrderLoop name src fuel (offset + 100) acc2
        (next.1, next.2.1, offset :: next.2.2)

/-- Side mapping in `GetOrderInfo` (lines 517-521): `EqualFold(Type,
"ASK")` gives Ask, else `EqualFold(Type, "BID")` gives Buy, else the side
keeps its zero value. -/
def getOrderInfoSide (t : String) : String :=
  if eqFold t askSide then askSide
  else if eqFold t bidSide then buySide
  else ""

/-- The `order.Detail` built by `GetOrderInfo` for the matching record
(lines 507-521); `RemainingAmount` is `InitialAmount - FilledAmount`.
`currency.NewPairDelimiter` (outside src) re-wraps the raw pair string. -/
def getOrderInfoDetail (name : String) (o : OpenOrder) : OrderDetail :=
  { exchange := name
    id := o.orderNumber
    remainingAmount := o.initialAmount - o.filledAmount
    executedAmount := o.filledAmount
    amount := o.initialAmount
    orderDate := (o.timestamp : ℚ)
    status := o.status
    price := o.rate
    currencyPair := o.currencyPair
    orderSide := getOrderInfoSide o.otype }

/-- The linear scan of `GetOrderInfo` over the open orders (lines
503-524): first record with the requested id wins; a missing id yields
the error "no order found with id <id>". -/
def getOrderInfoScan (name : String) (orders : List OpenOrder) (orderID : String) :
    OrderDetail × Option String :=
  match orders with
  | [] => ({}, some ("no order found with id " ++ orderID))
  | o :: rest =>
    if o.orderNumber = orderID then (getOrderInfoDetail name o, none)
    else getOrderInfoScan name rest orderID

/-- `GetOrderInfo` (lines 497-525): a failed open-orders fetch is replaced
by the fresh error "failed to get open orders" (line 501), discarding the
underlying fetch error; a successful fetch is scanned linearly. -/
def getOrderInfo (name : String) (fetched : Except String (List OpenOrder))
    (orderID : String) : OrderDetail × Option String :=
  match fetched with
  | .error _ => ({}, some "failed to get open orders")
  | .ok orders => getOrderInfoScan name orders orderID

/-- Normalization of one REST open order in `GetActiveOrders` (lines
631-645): the side is the upper-cased raw type string, `RemainingAmount`
is assigned the raw `FilledAmount`, and `ExecutedAmount` is never
assigned (it stays 0). -/
def restNormalizeOrder (name : String) (o : OpenOrder) : OrderDetail :=
  { id := o.orderNumber
    amount := o.amount
    price := o.rate
    remainingAmount := o.filledAmount
    orderDate := (o.timestamp : ℚ)
    orderSide := toUpperStr o.otype
    exchange := name
    currencyPair := o.currencyPair
    status := o.status }

/-- REST branch of `GetActiveOrders` (lines 620-646): a fetch error is
returned unchanged with a nil slice; otherwise exactly the records whose
status is the exact string "open" are normalized, in order. The generic
post-filtering by tick range and side (order package, outside this
repository) only removes records and is not modelled. -/
def restActiveOrders (name : String) (fetched : Except String (List OpenOrder)) :
    List OrderDetail × Option String :=
  match fetched with
  | .error e => ([], some e)
  | .ok os => ((os.filter fun o => o.status == "open").map (restNormalizeOrder name), none)

/-- `CancelAllOrders` (lines 472-494): on a failed open-orders fetch the
error is returned unchanged; otherwise one cancel call is made per
distinct currency pair of the open orders, a per-symbol failure only
being recorded as its error string in the `Status` map, and the returned
error is nil regardless of those failures. -/
def cancelAllOrders (fetched : Except String (List OpenOrder))
    (cancel : String → Option String) : List (String × String) × Option String :=
  match fetched with
  | .error e => ([], some e)
  | .ok orders =>
    ((orders.map OpenOrder.currencyPair).dedup.filterMap
      (fun s => (cancel s).map fun e => (s, e)), none)

/-- One entry of the raw `GetTickers` map, with the fields `UpdateTicker`
reads (`openPrice` / `closePrice` are the Go fields `Open` / `Close`,
reserved words in Lean). -/
structure RawTicker where
  last : ℚ
  high : ℚ
  low : ℚ
  baseVolume : ℚ
  quoteVolume : ℚ
  openPrice : ℚ
  closePrice : ℚ
  deriving DecidableEq, Repr

/-- `ticker.Price` as populated by `UpdateTicker` (lines 236-245). -/
structure TickerPrice where
  last : ℚ
  high : ℚ
  low : ℚ
  volume : ℚ
  quoteVolume : ℚ
  openPrice : ℚ
  closePrice : ℚ
  pair : String
  deriving DecidableEq, Repr

/-- The `ticker.Price` built from one raw entry for one enabled pair. -/
def mkTickerPrice (k : RawTicker) (pair : String) : TickerPrice :=
  { last := k.last
    high := k.high
    low := k.low
    volume := k.baseVolume
    quoteVolume := k.quoteVolume
    openPrice := k.openPrice
    closePrice := k.closePrice
    pair := pair }

/-- The tickers `UpdateTicker` publishes for one enabled pair: one per raw
map key matching the pair case-insensitively (inner loop, lines 232-250;
the loop does not stop at the first match). -/
def publishesFor (rawMap : List (String × RawTicker)) (p : String) : List TickerPrice :=
  (rawMap.filter fun kv => eqFold kv.1 p).map fun kv => mkTickerPrice kv.2 p

/-- All tickers `UpdateTicker` publishes, in pair-major order (outer loop
over the enabled pairs, line 231). -/
def updateTickerPublishes (rawMap : List (String × RawTicker)) (pairs : List String) :
    List TickerPrice :=
  pairs.flatMap (publishesFor rawMap)

/-- `UpdateTicker` including the `GetTickers` fetch (lines 224-254): a
fetch error is returned unchanged; the mapping loop itself never fails (a
`ProcessTicker` failure is only logged, line 246-249). -/
def updateTickerRun (fetched : Except String (List (String × RawTicker)))
    (pairs : List String) : List TickerPrice × Option String :=
  match fetched with
  | .error e => ([], some e)
  | .ok rawMap => (updateTickerPublishes rawMap pairs, none)

/-- The two error values of the `common` package used by the unsupported
operations of the wrapper. -/
inductive CommonError where
  | errFunctionNotSupported
  | errNotYetImplemented
  deriving DecidableEq, Repr

/-- `GetFundingHistory` (lines 408-410): always `(nil,
common.ErrFunctionNotSupported)`. -/
def getFundingHistory : List Unit × Option CommonError :=
  ([], some .errFunctionNotSupported)

/-- `GetExchangeHistory` (lines 413-415): always `(nil,
common.ErrNotYetImplemented)`, for every input. -/
def getExchangeHistory {α β : Type} (_p : α) (_assetType : β) :
    List Unit × Option CommonError :=
  ([], some .errNotYetImplemented)

/-- `WithdrawFiatFunds` (lines 549-551): always `("",
common.ErrFunctionNotSupported)`, for every request. -/
def withdrawFiatFunds {α : Type} (_withdrawRequest : α) : String × Option CommonError :=
  ("", some .errFunctionNotSupported)

/-- `WithdrawFiatFundsToInternationalBank` (lines 555-557): always `("",
common.ErrFunctionNotSupported)`, for every request. -/
def withdrawFiatFundsToInternationalBank {α : Type} (_withdrawRequest : α) :
    String × Option CommonError :=
  ("", some .errFunctionNotSupported)

/-- A websocket order record with all fields at their zero values. -/
def dummyWsRecord : WsOrderRecord :=
  { id := 0, user := 0, market := "", typeFlag := 0, orderTypeFlag := 0,
    price := 0, amount := 0, filledAmount := 0, left := 0, dealFee := 0, ctime := 0 }

/-- Page source yielding pages of sizes 100, 100, 37 at offsets 0, 100,
200. -/
def pageSrcA (offset : Nat) : Except String (List WsOrderRecord) :=
  if offset < 200 then .ok (List.replicate 100 dummyWsRecord)
  else .ok (List.replicate 37 dummyWsRecord)

/-- Page source yielding pages of sizes 100, 100, 100, 0 at offsets 0,
100, 200, 300. -/
def pageSrcB (offset : Nat) : Except String (List WsOrderRecord) :=
  if offset < 300 then .ok (List.replicate 100 dummyWsRecord)
  else .ok []

/-- Page source whose first page is full and whose second fetch fails. -/
def pageSrcErr (offset : Nat) : Except String (List WsOrderRecord) :=
  if offset = 0 then .ok (List.replicate 100 dummyWsRecord)
  else .error "transport failure"

/-- A websocket order record whose numeric side and type flags are both
the unrecognized value 2. -/
def flag2Record : WsOrderRecord :=
  { dummyWsRecord with typeFlag := 2, orderTypeFlag := 2 }

/-- Page source yielding one short page holding only `flag2Record`. -/
def pageSrcFlag2 (_offset : Nat) : Except String (List WsOrderRecord) :=
  .ok [flag2Record]

lemma wsOrderLoop_offsets (name : String) (src : Nat → Except String (List WsOrderRecord))
    (fuel offset : Nat) (acc : List OrderDetail) :
    (wsOrderLoop name src fuel offset acc).2.2 =
      (List.range (wsOrderLoop name src fuel offset acc).2.2.length).map
        fun k => offset + 100 * k := by
  induction fuel generalizing offset acc with
  | zero => rfl
  | succ fuel ih =>
    cases hsrc : src offset with
    | error e => simp [wsOrderLoop, hsrc, List.range_succ, List.range_zero]
    | ok recs =>
      by_cases hlen : recs.length < 100
      · simp [wsOrderLoop, hsrc, hlen, List.range_succ, List.range_zero]
      · have hstep : ∀ k, offset + 100 * (k + 1) = (offset + 100) + 100 * k := by
          intro k; ring
        have h1 : offset + 100 * 0 = offset := by ring
        simp only [wsOrderLoop, hsrc, if_neg hlen, List.length_cons,
          List.range_succ_eq_map, List.map_cons, List.map_map, h1]
        congr 1
        rw [ih (offset + 100) (acc ++ recs.map (wsNormalizeOrder name))]
        simp only [List.length_map, List.length_range]
        congr 1
        funext k
        simp [Function.comp, hstep]

lemma getLastD_ne_nil {α : Type} {l : List α} (h : l ≠ []) (d d' : α) :
    l.getLastD d = l.getLastD d' := by
  obtain ⟨x, l', rfl⟩ := List.exists_cons_of_ne_nil h
  rw [List.getLastD_cons, List.getLastD_cons]

set_option maxRecDepth 8000 in
/-- C5: the websocket pagination loop of `GetActiveOrders` fetches at
offsets `offset, offset+100, offset+200, ...` (advancing by exactly the
fixed page size 100 per iteration); for a page source yielding pages of
sizes [100, 100, 37] it performs exactly 3 fetches at offsets 0, 100,
200, accumulates 237 records and succeeds; for page sizes [100, 100,
100, 0] it performs exactly 4 fetches and accumulates 300 records. -/
theorem C5_pagination_loop :
    (∀ (name : String) (src : Nat → Except String (List WsOrderRecord))
        (fuel offset : Nat) (acc : List OrderDetail),
      (wsOrderLoop name src fuel offset acc).2.2 =
        (List.range (wsOrderLoop name src fuel offset acc).2.2.length).map
          fun k => offset + 100 * k) ∧
    ((wsOrderLoop "GateIO" pageSrcA 10 0 []).2.2 = [0, 100, 200] ∧
     (wsOrderLoop "GateIO" pageSrcA 10 0 []).1.length = 237 ∧
     (wsOrderLoop "GateIO" pageSrcA 10 0 []).2.1 = none) ∧
    ((wsOrderLoop "GateIO" pageSrcB 10 0 []).2.2 = [0, 100, 200, 300] ∧
     (wsOrderLoop "GateIO" pageSrcB 10 0 []).1.length = 300 ∧
     (wsOrderLoop "GateIO" pageSrcB 10 0 []).2.1 = none) :=
  ⟨wsOrderLoop_offsets, ⟨by decide, by decide, by decide⟩,
    ⟨by decide, by decide, by decide⟩⟩

/-- C4 (amended): if a page fetch of the websocket loop fails, the loop
stops at that fetch and the returned error is exactly the fetch error of
the last offset fetched — but the previously accumulated records are not
discarded: the Go `return orders, err` carries the accumulator alongside
the error, so the error-branch result retains every record accumulated
so far. -/
theorem C4_error_aborts_with_accumulation (name : String)
    (src : Nat → Except String (List WsOrderRecord))
    (fuel offset : Nat) (acc : List OrderDetail) (e : String)
    (h : (wsOrderLoop name src fuel offset acc).2.1 = some e) :
    (wsOrderLoop name src fuel offset acc).2.2 ≠ [] ∧
    src ((wsOrderLoop name src fuel offset acc).2.2.getLastD 0) = .error e ∧
    acc <+: (wsOrderLoop name src fuel offset acc).1 := by
  induction fuel generalizing offset acc with
  | zero => simp [wsOrderLoop] at h
  | succ fuel ih =>
    cases hsrc : src offset with
    | error e' =>
      rw [wsOrderLoop, hsrc] at h ⊢
      simp only [Option.some.injEq] at h
      subst h
      exact ⟨by simp, by simpa using hsrc, List.prefix_refl acc⟩
    | ok recs =>
      by_cases hlen : recs.length < 100
      · simp [wsOrderLoop, hsrc, hlen] at h
      · simp only [wsOrderLoop, hsrc, if_neg hlen] at h ⊢
        obtain ⟨hne, hsrcoff, hpre⟩ :=
          ih (offset + 100) (acc ++ recs.map (wsNormalizeOrder name)) h
        refine ⟨by simp, ?_, ?_⟩
        · rw [List.getLastD_cons, getLastD_ne_nil hne offset 0]
          exact hsrcoff
        · exact (List.prefix_append acc (recs.map (wsNormalizeOrder name))).trans hpre

set_option maxRecDepth 8000 in
/-- C4 counterexample: with a source whose first page is full (100
records) and whose second fetch fails, the loop returns the transport
error together with the 100 records accumulated from the first page — the
result on the error branch does carry the accumulated records, refuting
the claim that they are discarded. -/
theorem C4_counterexample :
    (wsOrderLoop "GateIO" pageSrcErr 10 0 []).2.1 = some "transport failure" ∧
    (wsOrderLoop "GateIO" pageSrcErr 10 0 []).1.length = 100 :=
  ⟨by decide, by decide⟩

set_option maxRecDepth 8000 in
/-- C4 witness: the amended theorem applied to the concrete failing
source `pageSrcErr`. -/
theorem C4_witness :
    pageSrcErr ((wsOrderLoop "GateIO" pageSrcErr 10 0 []).2.2.getLastD 0) =
      .error "transport failure" ∧
    [] <+: (wsOrderLoop "GateIO" pageSrcErr 10 0 []).1 :=
  ⟨(C4_error_aborts_with_accumulation "GateIO" pageSrcErr 10 0 [] "transport failure"
      (by decide)).2.1,
   (C4_error_aborts_with_accumulation "GateIO" pageSrcErr 10 0 [] "transport failure"
      (by decide)).2.2⟩

/-- C3 (amended): the websocket normalization of `GetActiveOrders` maps
the numeric side flag 1 to Sell and every other value (including 0 and
the unrecognized 2) to Buy, and the numeric type flag 1 to Limit and
every other value to Market; flag 0 maps to Buy / Market as claimed, but
an unrecognized flag such as 2 never fails the call: a page holding a
record with both flags 2 yields a successful call whose record is
silently normalized to side Buy and type Market. -/
theorem C3_flag_normalization :
    (∀ (name : String) (r : WsOrderRecord),
      ((wsNormalizeOrder name r).orderSide =
        if r.typeFlag = 1 then sellSide else buySide) ∧
      ((wsNormalizeOrder name r).orderType =
        if r.orderTypeFlag = 1 then limitType else marketType)) ∧
    ((wsOrderLoop "GateIO" pageSrcFlag2 10 0 []).2.1 = none ∧
     (wsOrderLoop "GateIO" pageSrcFlag2 10 0 []).1.map
        (fun d => (d.orderSide, d.orderType)) = [("BUY", "MARKET")]) :=
  ⟨fun _ _ => ⟨rfl, rfl⟩, by decide, by decide⟩

/-- C3 counterexample: a websocket record whose numeric side and type
flags are 2 is not rejected with an unrecognized-enum error: the call
succeeds (nil error) and the record is silently mapped to side Buy and
type Market. -/
theorem C3_counterexample :
    (wsNormalizeOrder "GateIO" flag2Record).orderSide = buySide ∧
    (wsNormalizeOrder "GateIO" flag2Record).orderType = marketType ∧
    (wsOrderLoop "GateIO" pageSrcFlag2 10 0 []).2.1 = none :=
  ⟨rfl, rfl, by decide⟩

/-- A concrete REST open-order record: requested 10, filled 3, open. -/
def sampleOpenOrder : OpenOrder :=
  { orderNumber := "12345", initialAmount := 10, filledAmount := 3, amount := 10,
    rate := 1, timestamp := 0, status := "open", currencyPair := "BTC_USDT",
    otype := "sell" }

/-- A concrete websocket record: amount 10, filled 3, raw `Left` 999. -/
def sampleWsOrder : WsOrderRecord :=
  { dummyWsRecord with amount := 10, filledAmount := 3, left := 999 }

/-- C2 (amended): only `GetOrderInfo` computes the remaining amount
locally as `initial - filled` (non-negative whenever `filled <=
initial`); the websocket path of `GetActiveOrders` copies the remaining
amount verbatim from the raw `Left` field of the source, and the REST
path of `GetActiveOrders` assigns the raw `FilledAmount` to the remaining
amount while leaving the executed amount at 0. -/
theorem C2_remaining_amount :
    (∀ (name : String) (o : OpenOrder),
      (getOrderInfoDetail name o).remainingAmount =
          o.initialAmount - o.filledAmount ∧
      (getOrderInfoDetail name o).executedAmount = o.filledAmount ∧
      (getOrderInfoDetail name o).amount = o.initialAmount) ∧
    (∀ (name : String) (r : WsOrderRecord),
      (wsNormalizeOrder name r).remainingAmount = r.left) ∧
    (∀ (name : String) (o : OpenOrder),
      (restNormalizeOrder name o).remainingAmount = o.filledAmount ∧
      (restNormalizeOrder name o).executedAmount = 0) ∧
    (∀ (name : String) (o : OpenOrder), o.filledAmount ≤ o.initialAmount →
      0 ≤ (getOrderInfoDetail name o).remainingAmount) :=
  ⟨fun _ _ => ⟨rfl, rfl, rfl⟩, fun _ _ => rfl, fun _ _ => ⟨rfl, rfl⟩,
   fun _ o h => by simpa [getOrderInfoDetail] using sub_nonneg.mpr h⟩

/-- C2 counterexample: the REST path of `GetActiveOrders` gives a record
with remaining 3 while `initial - executed = 10 - 0 = 10`, and the
websocket path copies the stale source field `Left = 999` although
`initial - executed = 10 - 3 = 7`. -/
theorem C2_counterexample :
    (restNormalizeOrder "GateIO" sampleOpenOrder).remainingAmount ≠
      (restNormalizeOrder "GateIO" sampleOpenOrder).amount -
        (restNormalizeOrder "GateIO" sampleOpenOrder).executedAmount ∧
    (wsNormalizeOrder "GateIO" sampleWsOrder).remainingAmount = 999 ∧
    (wsNormalizeOrder "GateIO" sampleWsOrder).amount -
        (wsNormalizeOrder "GateIO" sampleWsOrder).executedAmount = 7 := by
  refine ⟨?_, rfl, ?_⟩ <;>
    norm_num [restNormalizeOrder, wsNormalizeOrder, sampleOpenOrder,
      sampleWsOrder, dummyWsRecord]

/-- C2 witness: the amended theorem applied to `sampleOpenOrder`. -/
theorem C2_witness :
    (getOrderInfoDetail "GateIO" sampleOpenOrder).remainingAmount =
      sampleOpenOrder.initialAmount - sampleOpenOrder.filledAmount ∧
    0 ≤ (getOrderInfoDetail "GateIO" sampleOpenOrder).remainingAmount :=
  ⟨(C2_remaining_amount.1 "GateIO" sampleOpenOrder).1,
   C2_remaining_amount.2.2.2 "GateIO" sampleOpenOrder (by norm_num [sampleOpenOrder])⟩

/-- C6 (amended): the façade operations `GetActiveOrders` (both paths),
`CancelAllOrders`, `UpdateAccountInfo` and `UpdateTicker` surface a
failed transport fetch as the same error value, unchanged — but
`GetOrderInfo` does not: a failed open-orders fetch is replaced by the
fresh generic error "failed to get open orders", discarding the
underlying transport error. -/
theorem C6_transport_error_propagation :
    (∀ (name e orderID : String),
      getOrderInfo name (.error e) orderID =
        ({}, some "failed to get open orders")) ∧
    (∀ (name e : String), restActiveOrders name (.error e) = ([], some e)) ∧
    (∀ (e : String) (cancel : String → Option String),
      cancelAllOrders (.error e) cancel = ([], some e)) ∧
    (∀ e : String, updateAccountInfoREST (.error e) = ([], some e)) ∧
    (∀ (e : String) (pairs : List String),
      updateTickerRun (.error e) pairs = ([], some e)) ∧
    (∀ (name : String) (src : Nat → Except String (List WsOrderRecord))
        (fuel offset : Nat) (acc : List OrderDetail) (e : String),
      src offset = .error e →
        wsOrderLoop name src (fuel + 1) offset acc = (acc, some e, [offset])) :=
  ⟨fun _ _ _ => rfl, fun _ _ => rfl, fun _ _ => rfl, fun _ => rfl, fun _ _ => rfl,
   fun name src fuel offset acc e h => by simp [wsOrderLoop, h]⟩

/-- C6 counterexample: when the open-orders fetch fails with the
transport error "connection reset by peer", `GetOrderInfo` returns the
different, freshly created error "failed to get open orders" instead of
the fetch error. -/
theorem C6_counterexample :
    getOrderInfo "GateIO" (.error "connection reset by peer") "12345" =
      ({}, some "failed to get open orders") ∧
    some "failed to get open orders" ≠ some "connection reset by peer" :=
  ⟨rfl, by decide⟩

/-- C6 witness: the amended theorem applied to a concrete failing source
for the websocket loop. -/
theorem C6_witness :
    wsOrderLoop "GateIO" (fun _ => .error "boom") 5 0 [] =
      ([], some "boom", [0]) :=
  C6_transport_error_propagation.2.2.2.2.2 "GateIO" (fun _ => .error "boom")
    4 0 [] "boom" rfl

/-- C7 (amended): fiat withdrawal (`WithdrawFiatFunds`,
`WithdrawFiatFundsToInternationalBank`) and funding history
(`GetFundingHistory`) fail with the dedicated
`common.ErrFunctionNotSupported` for every input and never return an
empty success; historical trade export (`GetExchangeHistory`) also never
returns an empty success, but fails with the distinct error
`common.ErrNotYetImplemented` rather than the not-supported error. -/
theorem C7_unsupported_operations :
    (∀ (α : Type) (req : α),
      withdrawFiatFunds req = ("", some .errFunctionNotSupported)) ∧
    (∀ (α : Type) (req : α),
      withdrawFiatFundsToInternationalBank req =
        ("", some .errFunctionNotSupported)) ∧
    getFundingHistory = ([], some .errFunctionNotSupported) ∧
    (∀ (α β : Type) (p : α) (assetType : β),
      getExchangeHistory p assetType = ([], some .errNotYetImplemented)) ∧
    CommonError.errNotYetImplemented ≠ CommonError.errFunctionNotSupported :=
  ⟨fun _ _ => rfl, fun _ _ => rfl, rfl, fun _ _ _ _ => rfl, by decide⟩

/-- C7 counterexample: `GetExchangeHistory` fails with
`common.ErrNotYetImplemented`, a different error kind than the dedicated
not-supported error the claim requires for every unsupported operation. -/
theorem C7_counterexample :
    getExchangeHistory "BTC_USDT" "spot" = ([], some .errNotYetImplemented) ∧
    (getExchangeHistory "BTC_USDT" "spot").2 ≠
      some CommonError.errFunctionNotSupported :=
  ⟨rfl, by decide⟩

/-- A concrete raw ticker payload. -/
def tickA : RawTicker :=
  { last := 1, high := 2, low := 3, baseVolume := 4, quoteVolume := 5,
    openPrice := 6, closePrice := 7 }

/-- A second, distinct raw ticker payload. -/
def tickB : RawTicker :=
  { last := 8, high := 9, low := 10, baseVolume := 11, quoteVolume := 12,
    openPrice := 13, closePrice := 14 }

lemma eqFold_of_eqFold_right {a b p : String} (h1 : eqFold a p = true)
    (h2 : eqFold b p = true) : eqFold a b = true := by
  simp only [eqFold, beq_iff_eq] at h1 h2 ⊢
  rw [h1, h2]

/-- C8 (amended): `UpdateTicker` matches enabled pairs against raw keys
case-insensitively and publishes one ticker per (pair, matching key)
match; when the raw keys are pairwise case-insensitively distinct — the
normal shape of the exchange map — each enabled pair yields exactly one
ticker if some raw key matches it and zero otherwise (an unmatched pair
is silently skipped); every published ticker carries the enabled pair,
and the mapping loop itself never makes the call fail. -/
theorem C8_ticker_case_insensitive (rawMap : List (String × RawTicker))
    (h : rawMap.Pairwise fun a b => eqFold a.1 b.1 = false) (p : String) :
    (publishesFor rawMap p).length =
      (if rawMap.any fun kv => eqFold kv.1 p then 1 else 0) ∧
    (∀ t ∈ publishesFor rawMap p, t.pair = p) ∧
    (∀ pairs, (updateTickerRun (.ok rawMap) pairs).2 = none) := by
  refine ⟨?_, ?_, fun _ => rfl⟩
  · induction rawMap with
    | nil => simp [publishesFor]
    | cons kv rest ih =>
      have hpw := List.pairwise_cons.mp h
      by_cases hm : eqFold kv.1 p = true
      · have hrest : rest.filter (fun kv' => eqFold kv'.1 p) = [] := by
          apply List.filter_eq_nil_iff.mpr
          intro kv' hkv' hkv'm
          have htr := eqFold_of_eqFold_right hm hkv'm
          rw [hpw.1 kv' hkv'] at htr
          cases htr
        simp [publishesFor, List.filter_cons, hm, hrest, List.any_cons]
      · have hm' : eqFold kv.1 p = false := by
          cases hq : eqFold kv.1 p
          · rfl
          · exact absurd hq hm
        simp only [publishesFor, List.filter_cons, hm', cond_false, List.any_cons,
          Bool.false_or]
        exact ih (List.pairwise_cons.mp h).2
  · intro t ht
    simp only [publishesFor, List.mem_map] at ht
    obtain ⟨kv, _, rfl⟩ := ht
    rfl

/-- C8 counterexample: a raw map holding the two case-insensitively equal
keys "BTC_USDT" and "btc_usdt" publishes two tickers for the single
matching enabled pair "btc_usdt" — not exactly one per matching pair. -/
theorem C8_counterexample :
    (updateTickerPublishes [("BTC_USDT", tickA), ("btc_usdt", tickB)]
        ["btc_usdt"]).length = 2 ∧
    (updateTickerPublishes [("BTC_USDT", tickA), ("btc_usdt", tickB)]
        ["btc_usdt"]).length ≠ 1 ∧
    eqFold "BTC_USDT" "btc_usdt" = true :=
  ⟨by decide, by decide, by decide⟩

/-- C8 witness: the amended theorem applied to the one-key raw map
`{ETH_BTC: tickA}` and the lower-cased enabled pair "eth_btc". -/
theorem C8_witness :
    (publishesFor [("ETH_BTC", tickA)] "eth_btc").length =
      (if [("ETH_BTC", tickA)].any fun kv => eqFold kv.1 "eth_btc"
        then 1 else 0) :=
  (C8_ticker_case_insensitive [("ETH_BTC", tickA)] (by decide) "eth_btc").1

/-- C9: whenever the initial open-orders fetch succeeds, `CancelAllOrders`
returns a nil error, whatever the per-symbol cancel outcomes; an entry
`(s, e)` appears in the returned Status map exactly when `s` is one of
the distinct currency pairs of the open orders and the cancel call for
`s` failed with error string `e` — so a caller checking only the error
value cannot distinguish success from per-symbol cancellation failure. -/
theorem C9_cancel_all_nil_error (orders : List OpenOrder)
    (cancel : String → Option String) :
    (cancelAllOrders (.ok orders) cancel).2 = none ∧
    (∀ s e, (s, e) ∈ (cancelAllOrders (.ok orders) cancel).1 ↔
      (s ∈ (orders.map OpenOrder.currencyPair).dedup ∧ cancel s = some e)) := by
  refine ⟨rfl, fun s e => ?_⟩
  simp only [cancelAllOrders, List.mem_filterMap, Option.map_eq_some']
  constructor
  · rintro ⟨s', hs', e', he', heq⟩
    cases heq
    exact ⟨hs', he'⟩
  · rintro ⟨hs, he⟩
    exact ⟨s, hs, e, he, rfl⟩

/-- A record identical to `sampleOpenOrder` but with the differently
cased status string "Open". -/
def sampleClosedOrder : OpenOrder := { sampleOpenOrder with status := "Open" }

/-- C10: the REST path of `GetActiveOrders` returns nil error on a
successful fetch and includes exactly the normalizations of the fetched
records whose status string is exactly "open": every returned record
comes from an "open" source record, every "open" source record is
returned, and a record with any other status (such as the differently
cased "Open") is silently excluded without failing the call. -/
theorem C10_rest_status_filter (name : String) (os : List OpenOrder) :
    (restActiveOrders name (.ok os)).2 = none ∧
    (∀ d ∈ (restActiveOrders name (.ok os)).1,
      ∃ o ∈ os, o.status = "open" ∧ d = restNormalizeOrder name o) ∧
    (∀ o ∈ os, o.status = "open" →
      restNormalizeOrder name o ∈ (restActiveOrders name (.ok os)).1) ∧
    (∀ o : OpenOrder, o.status ≠ "open" →
      restActiveOrders name (.ok [o]) = ([], none)) := by
  refine ⟨rfl, ?_, ?_, ?_⟩
  · intro d hd
    simp only [restActiveOrders, List.mem_map, List.mem_filter, beq_iff_eq] at hd
    obtain ⟨o, ⟨ho, hst⟩, rfl⟩ := hd
    exact ⟨o, ho, hst, rfl⟩
  · intro o ho hst
    simp only [restActiveOrders]
    exact List.mem_map_of_mem _ (List.mem_filter.mpr ⟨ho, by simp [hst]⟩)
  · intro o hst
    have hb : (o.status == "open") = false := by simpa using hst
    simp [restActiveOrders, List.filter_cons, hb]

/-- C10 witness: the theorem applied to a one-record fetch with status
"open" (record included) and to one with status "Open" (record silently
excluded, nil error). -/
theorem C10_witness :
    restNormalizeOrder "GateIO" sampleOpenOrder ∈
      (restActiveOrders "GateIO" (.ok [sampleOpenOrder])).1 ∧
    restActiveOrders "GateIO" (.ok [sampleClosedOrder]) = ([], none) :=
  ⟨(C10_rest_status_filter "GateIO" [sampleOpenOrder]).2.2.1 sampleOpenOrder
      (List.mem_singleton.mpr rfl) rfl,
   (C10_rest_status_filter "GateIO" [sampleClosedOrder]).2.2.2 sampleClosedOrder
      (by decide)⟩

end Gateio
